import Mathlib

/-!
Shallow embedding of the charting core of `src/client/src/Plots.js`
(the middle of the three concatenated module versions in that file,
lines ~900-2520, which is the one all cross-references below point at).

Modelling conventions:
* JavaScript finite numbers are modelled as rationals (`ℚ`).  A field that
  the code obtains through `parseFloat` / `parseInt` and then guards with
  `Number.isFinite` is modelled as an `Option` value: `none` stands for a
  parse result that is not a finite number (`NaN`/`Infinity`), `some v` for
  the finite value `v`.
* `Math.round` (ECMAScript: round to nearest, ties toward plus infinity)
  is modelled as `fun x => ⌊x + 1/2⌋`, which is exactly the ECMA-262
  abstract definition on real values.
* The JavaScript `%` operator is truncated remainder, i.e. `Int.tmod`.
* Grouping by the object key `row.Year` is modelled by grouping on the
  parsed integer year; the record filter only lets rows with a finite
  parsed year through, so on filtered input the two groupings agree.
* `arr.slice().sort((a, b) => a - b)` on finite numbers produces the
  ascending sorted permutation of the array, modelled by `insertionSort`.
-/

namespace NWMW

/-- String.prototype.trim: drop whitespace from both ends of the string.
Implemented structurally over the character list so that the kernel can
evaluate it (Lean's own `String.trim` is defined by well-founded recursion). -/
def jsTrim (s : String) : String :=
  String.mk ((((s.data.dropWhile Char.isWhitespace).reverse).dropWhile Char.isWhitespace).reverse)

/-- Math.round per ECMA-262: round half toward positive infinity. -/
def jsRound (x : ℚ) : ℤ := ⌊x + 1/2⌋

/-- Plots.js line 938: `round3 = (v) => (Number.isFinite(v) ? Math.round(v * 1000) / 1000 : v)`,
restricted to finite inputs (where the first branch is taken). -/
def round3 (v : ℚ) : ℚ := (jsRound (v * 1000) : ℚ) / 1000

/-- Core of Plots.js lines 944-953 (`quantile`) on a nonempty array:
`pos = (arr.length - 1) * q; base = Math.floor(pos); rest = pos - base;`
then interpolate when `arr[base + 1] !== undefined`, i.e. `base + 1 < arr.length`. -/
def quantileVal (arr : List ℚ) (q : ℚ) : ℚ :=
  let pos : ℚ := ((arr.length : ℚ) - 1) * q
  let base : ℕ := (⌊pos⌋).toNat
  let rest : ℚ := pos - (base : ℚ)
  if base + 1 < arr.length then
    arr.getD base 0 + rest * (arr.getD (base + 1) 0 - arr.getD base 0)
  else
    arr.getD base 0

/-- Plots.js lines 944-953: `quantile` returns NaN on an empty/undefined array,
modelled as `none`; otherwise it is `quantileVal`. -/
def quantile (arr : List ℚ) (q : ℚ) : Option ℚ :=
  if arr.isEmpty then none else some (quantileVal arr q)

/-- Modelled from the spec words for the quantile algorithm (section 4.3 of the
spec): `position = (n-1) * q`; when the position lands exactly on an index the
value at that index is returned unmodified, otherwise the result is the linear
interpolation between the two bracketing sorted values (the floor and the
ceiling index). -/
def specQuantile (arr : List ℚ) (q : ℚ) : ℚ :=
  let pos : ℚ := ((arr.length : ℚ) - 1) * q
  let lo : ℕ := (⌊pos⌋).toNat
  let hi : ℕ := (⌈pos⌉).toNat
  if hi = lo then
    arr.getD lo 0
  else
    arr.getD lo 0 + (pos - (lo : ℚ)) * (arr.getD hi 0 - arr.getD lo 0)

/-- Ascending numeric sort, modelling `arr.slice().sort((a, b) => a - b)`. -/
def sortAsc (l : List ℚ) : List ℚ := l.insertionSort (· ≤ ·)

/-- Arithmetic mean, modelling `arr.reduce((s, v) => s + v, 0) / arr.length`. -/
def mean (l : List ℚ) : ℚ := l.foldl (· + ·) 0 / (l.length : ℚ)

/-- Five-number summary record produced by `computeBoxStats` (Plots.js line 2602,
identical in `src/unnamed/part_002` lines 70-80). -/
structure BoxStats where
  min : ℚ
  q1 : ℚ
  median : ℚ
  q3 : ℚ
  max : ℚ
deriving DecidableEq, Repr

/-- Plots.js lines 2602-2606 / part_002 lines 70-80: sort ascending, take the
sorted extremes and the three interpolated quantiles.  On the nonempty branch
the source call `quantile(sorted, q)` equals `some (quantileVal sorted q)`. -/
def computeBoxStats (values : List ℚ) : Option BoxStats :=
  if values.isEmpty then none
  else
    let sorted := sortAsc values
    some { min := sorted.getD 0 0
           q1 := quantileVal sorted (1/4)
           median := quantileVal sorted (1/2)
           q3 := quantileVal sorted (3/4)
           max := sorted.getD (sorted.length - 1) 0 }

/-- One CSV record as the chart code reads it.  `Year`/`Count` model the
`parseInt` results, `Avg`/`Min`/`Max` the `parseFloat` results (`none` when the
parse is not a finite number). -/
structure Row where
  Parameter : String
  Site : String
  Year : Option ℤ
  Avg : Option ℚ
  Min : Option ℚ
  Max : Option ℚ
  Count : Option ℤ
deriving DecidableEq, Repr

/-- A plot-slot configuration as consumed by the chart builders and the
download handler. -/
structure Cfg where
  parameter : String
  selectedSites : List String
  chartType : String
  startYear : Option ℤ
  endYear : Option ℤ
  trendIndex : Option ℤ
deriving DecidableEq, Repr

/-- Year-range part of every row filter:
`(startYear == null || yearNum >= startYear) && (endYear == null || yearNum <= endYear)`. -/
def yearOk (startYear endYear : Option ℤ) (y : ℤ) : Bool :=
  (match startYear with
   | none => true
   | some s => decide (s ≤ y)) &&
  (match endYear with
   | none => true
   | some e => decide (y ≤ e))

/-- Plots.js lines 995-1001: resolve which single site a Trend chart shows.
`idx = Number.isFinite(trendIndex) ? trendIndex : count - 1;`
`idx = ((idx % count) + count) % count;`  (JS `%` is truncated remainder)
`site = selectedSites[idx] || selectedSites[count - 1];`  (the `||` falls back
when the indexed entry is falsy, i.e. the empty string). -/
def resolveTrendSite (selectedSites : List String) (trendIndex : Option ℤ) : Option String :=
  if selectedSites.isEmpty then none
  else
    let count : ℤ := selectedSites.length
    let idx0 : ℤ := match trendIndex with
      | some i => i
      | none => count - 1
    let idx : ℤ := ((idx0.tmod count) + count).tmod count
    let s := selectedSites.getD idx.toNat ""
    some (if s = "" then selectedSites.getD (selectedSites.length - 1) "" else s)

/-- Plots.js lines 1003-1014: the Trend chart's per-row filter predicate, for an
already-resolved `site` (a JS value that is `null` or a string; the guard
`!!site` is false for `null` and for the empty string). -/
def trendRowMatch (cfg : Cfg) (site : Option String) (r : Row) : Bool :=
  (jsTrim r.Parameter == cfg.parameter) &&
  (match site with
   | none => false
   | some s => (!(s == "")) && (jsTrim r.Site == s)) &&
  (match r.Year with
   | none => false
   | some y => yearOk cfg.startYear cfg.endYear y)

/-- The rows the Trend builder aggregates (filter of Plots.js lines 1003-1014). -/
def trendFiltered (rows : List Row) (cfg : Cfg) : List Row :=
  rows.filter (trendRowMatch cfg (resolveTrendSite cfg.selectedSites cfg.trendIndex))

/-- Plots.js lines 1020-1031, `groupAvgs`: the (rounded) finite averages
collected for year `y`, in row order. -/
def avgsFor (rows : List Row) (y : ℤ) : List ℚ :=
  rows.filterMap (fun r => if r.Year = some y then r.Avg.map round3 else none)

/-- Plots.js lines 1020-1031, `groupMins`. -/
def minsFor (rows : List Row) (y : ℤ) : List ℚ :=
  rows.filterMap (fun r => if r.Year = some y then r.Min.map round3 else none)

/-- Plots.js lines 1020-1031, `groupMaxs`. -/
def maxsFor (rows : List Row) (y : ℤ) : List ℚ :=
  rows.filterMap (fun r => if r.Year = some y then r.Max.map round3 else none)

/-- Plots.js line 1030, `countByYear`: sum of the finite `Count` fields of the
rows of year `y` (a non-finite count contributes nothing). -/
def countFor (rows : List Row) (y : ℤ) : ℤ :=
  rows.foldl (fun acc r => if r.Year = some y then acc + r.Count.getD 0 else acc) 0

/-- A row contributes a key to `groupAvgs`/`groupMins`/`groupMaxs` iff one of
its three numeric fields parses to a finite number. -/
def hasData (r : Row) : Bool := r.Avg.isSome || r.Min.isSome || r.Max.isSome

/-- Plots.js lines 1033-1035: the union of the three groups' keys, sorted
ascending numerically and without duplicates. -/
def trendYears (rows : List Row) : List ℤ :=
  ((rows.filterMap (fun r => if hasData r then r.Year else none)).dedup).insertionSort (· ≤ ·)

/-- One entry of the Trend chart's `boxData` (Plots.js lines 1054-1061). -/
structure TrendBox where
  min : ℚ
  q1 : ℚ
  median : ℚ
  q3 : ℚ
  max : ℚ
  mean : ℚ
deriving DecidableEq, Repr

/-- Plots.js lines 1039-1063, body of the `years.forEach` loop for year `y`:
skip the year when it has no finite averages, otherwise build the box entry.
The whisker ends come from the separately collected min/max arrays, falling
back to the mean average when those arrays are empty.  On the nonempty branch
the source calls `quantile(sorted, q)`, which equals `some (quantileVal sorted q)`. -/
def boxForYear (rows : List Row) (y : ℤ) : Option TrendBox :=
  let avgs := avgsFor rows y
  if avgs.isEmpty then none
  else
    let sorted := sortAsc avgs
    let meanAvg := mean avgs
    let q1 := quantileVal sorted (1/4)
    let med := quantileVal sorted (1/2)
    let q3 := quantileVal sorted (3/4)
    let mins := minsFor rows y
    let maxs := maxsFor rows y
    let minVal : ℚ := match mins.min? with
      | some m => m
      | none => meanAvg
    let maxVal : ℚ := match maxs.max? with
      | some m => m
      | none => meanAvg
    some { min := round3 minVal
           q1 := round3 q1
           median := round3 med
           q3 := round3 q3
           max := round3 maxVal
           mean := round3 meanAvg }

/-- The renderer-facing part of the Trend chart object (Plots.js lines
1068-1084): x-axis labels (the years), the box entries and the per-box counts. -/
structure TrendModel where
  title : String
  subtitle : String
  labels : List ℤ
  boxData : List TrendBox
  counts : List ℤ
deriving DecidableEq, Repr

/-- Plots.js lines 992-1085, `buildTrendChart`: resolve the site, filter, group
by year, and emit labels / boxData / counts.  `labels` is the full `years`
array; `boxData` and `counts` are pushed only for years whose averages array is
nonempty (the `if (!avgs.length) return;` guard). -/
def buildTrendChart (rows : List Row) (cfg : Cfg) : TrendModel :=
  let site := resolveTrendSite cfg.selectedSites cfg.trendIndex
  let filtered := rows.filter (trendRowMatch cfg site)
  let years := trendYears filtered
  { title := match site with
      | some s => if s = "" then "Trend" else cfg.parameter ++ " Trend for " ++ s
      | none => "Trend"
    subtitle := if cfg.parameter = "" then "" else cfg.parameter ++ " by year"
    labels := years
    boxData := years.filterMap (fun y => boxForYear filtered y)
    counts := years.filterMap (fun y =>
      if (avgsFor filtered y).isEmpty then none else some (countFor filtered y)) }

/-- Plots.js lines 1092-1103: the Comparison chart's per-row filter predicate. -/
def compRowMatch (cfg : Cfg) (r : Row) : Bool :=
  (jsTrim r.Parameter == cfg.parameter) &&
  cfg.selectedSites.contains (jsTrim r.Site) &&
  (match r.Year with
   | none => false
   | some y => yearOk cfg.startYear cfg.endYear y)

/-- The rows the Comparison builder aggregates (filter of Plots.js lines 1092-1103). -/
def comparisonFiltered (rows : List Row) (cfg : Cfg) : List Row :=
  rows.filter (compRowMatch cfg)

/-- Plots.js lines 2381-2392: the per-row filter predicate of `handleDownload`,
used for every chart type. -/
def downloadRowMatch (cfg : Cfg) (r : Row) : Bool :=
  (jsTrim r.Parameter == cfg.parameter) &&
  cfg.selectedSites.contains (jsTrim r.Site) &&
  (match r.Year with
   | none => false
   | some y => yearOk cfg.startYear cfg.endYear y)

/-- The rows exported by the CSV download (Plots.js lines 2378-2401). -/
def downloadRows (rows : List Row) (cfg : Cfg) : List Row :=
  rows.filter (downloadRowMatch cfg)

/-- Plots.js lines 1190-1194, the padding computation of `makeOptions`:
`pad = span * 0.16`, and only when that is not finite or exactly zero,
`pad = Math.max(Math.abs(range.max) * 0.02, 0.1)`.  (On rationals the
product is always finite.) -/
def padFor (rmin rmax : ℚ) : ℚ :=
  let span := rmax - rmin
  let pad := span * (16/100)
  if pad = 0 then max (|rmax| * (2/100)) (1/10) else pad

/-- Modelled from the claim's padding formula:
`padding = max(span * 0.16, |dataMax| * 0.02, 0.1)`. -/
def specPadC2 (rmin rmax : ℚ) : ℚ :=
  let span := rmax - rmin
  max (span * (16/100)) (max (|rmax| * (2/100)) (1/10))

/-- Plots.js lines 1195-1202: the final integer axis bounds of `makeOptions`
(`isBox` selects the boxplot branch), including the clamp of the minimum to 0
for non-negative tightly clustered data. -/
def axisRangeFor (isBox : Bool) (rmin rmax : ℚ) : ℤ × ℤ :=
  let pad := padFor rmin rmax
  let span := rmax - rmin
  let ymin0 : ℤ := if isBox then ⌊rmin - pad⌋ else ⌊rmin⌋
  let ymax : ℤ := ⌈rmax + pad * 2⌉
  let ymin : ℤ := if 0 ≤ rmin ∧ ymin0 < 0 ∧ span < 1/2 then 0 else ymin0
  (ymin, ymax)

/-- Plots.js lines 1932-1946, the `lengthsMatch` propTypes validator: `labels`
must have the same length as `series`, and a nonempty `counts` array must match
the length of `series`.  `true` means the validator accepts (returns null). -/
def lengthsOk {α β γ : Type} (labels : List α) (series : List β) (counts : List γ) : Bool :=
  (labels.length == series.length) &&
  (counts.length == 0 || counts.length == series.length)

/-- Modelled from the claim's rounding rule: round-half-away-from-zero on the
scaled integer, `round3(v) = sign(v) * round_half_up(|v| * 1000) / 1000`. -/
def specRound3AwayFromZero (v : ℚ) : ℚ :=
  if v < 0 then -((⌊|v| * 1000 + 1/2⌋ : ℚ) / 1000)
  else ((⌊|v| * 1000 + 1/2⌋ : ℚ) / 1000)

/-- Modelled from the claim's site-resolution rule: display the site at index
`((trendSiteIndex mod count) + count) mod count` (the mathematical modulus into
`[0, count)`, i.e. `Int.emod`), defaulting to the last selected site when no
finite index is supplied. -/
def specResolveClaim (sites : List String) (ti : Option ℤ) : Option String :=
  if sites.isEmpty then none
  else
    let c : ℤ := sites.length
    let i0 : ℤ := match ti with
      | some i => i
      | none => c - 1
    some (sites.getD (i0.emod c).toNat "")

/-- The amended site-resolution rule: as `specResolveClaim`, except that when
the entry at the wrapped index is the empty string the last selected site is
displayed instead. -/
def specResolveAmended (sites : List String) (ti : Option ℤ) : Option String :=
  if sites.isEmpty then none
  else
    let c : ℤ := sites.length
    let i0 : ℤ := match ti with
      | some i => i
      | none => c - 1
    let s := sites.getD (i0.emod c).toNat ""
    some (if s = "" then sites.getD (sites.length - 1) "" else s)

/-- Concrete record: site A, year 2020, average 5, count 3 (spec scenario A). -/
def rowA : Row :=
  { Parameter := "Secchi", Site := "A", Year := some 2020
    Avg := some 5, Min := none, Max := none, Count := some 3 }

/-- Concrete record: like `rowA` but at site B with average 7 and count 2. -/
def rowB : Row :=
  { Parameter := "Secchi", Site := "B", Year := some 2020
    Avg := some 7, Min := none, Max := none, Count := some 2 }

/-- Concrete record whose average does not parse to a finite number but whose
declared min/max do (the input that desynchronises labels from boxData). -/
def rowMinOnly : Row :=
  { Parameter := "Secchi", Site := "A", Year := some 2020
    Avg := none, Min := some 1, Max := some 2, Count := some 1 }

/-- Trend configuration selecting sites A and B with no explicit trend index. -/
def cfgTrendAB : Cfg :=
  { parameter := "Secchi", selectedSites := ["A", "B"], chartType := "trend"
    startYear := none, endYear := none, trendIndex := none }

/-- Trend configuration selecting only site A. -/
def cfgTrendA : Cfg :=
  { parameter := "Secchi", selectedSites := ["A"], chartType := "trend"
    startYear := none, endYear := none, trendIndex := none }

end NWMW

namespace NWMW

/-! ### Helper lemmas -/

/-- Truncated remainder is odd in the dividend. -/
theorem tmod_neg_dividend (a b : ℤ) : (-a).tmod b = -(a.tmod b) := by
  rw [Int.tmod_def, Int.tmod_def, Int.neg_tdiv]
  ring

/-- Lower bound of the truncated remainder for a positive modulus. -/
theorem neg_lt_tmod (a : ℤ) {b : ℤ} (hb : 0 < b) : -b < a.tmod b := by
  rcases le_or_lt 0 a with h | h
  · have h0 := Int.tmod_nonneg b h
    linarith
  · have h1 : (-a).tmod b < b := Int.tmod_lt_of_pos (-a) hb
    rw [tmod_neg_dividend] at h1
    linarith

/-- The double-wrap `((i % c) + c) % c` with the truncated JS remainder equals
the mathematical (Euclidean) remainder. -/
theorem wrap_tmod_eq_emod (i c : ℤ) (hc : 0 < c) : ((i.tmod c) + c).tmod c = i.emod c := by
  have hlow : -c < i.tmod c := neg_lt_tmod i hc
  have hnn : 0 ≤ i.tmod c + c := by linarith
  rw [Int.tmod_eq_emod hnn hc.le, Int.add_emod_self, Int.tmod_def]
  have h2 : i - c * i.tdiv c = i + -(i.tdiv c) * c := by ring
  rw [h2, Int.add_mul_emod_self]
  rfl

/-- A `getD` result that differs from the default is a member of the list. -/
theorem getD_mem_of_ne_default (l : List String) (n : ℕ) (h : l.getD n "" ≠ "") :
    l.getD n "" ∈ l := by
  rw [List.getD_eq_getElem?_getD] at h ⊢
  rcases h' : l[n]? with _ | v
  · rw [h'] at h
    simp at h
  · simpa [h'] using List.getElem?_mem h'

/-- A site resolved by `resolveTrendSite` that is not the empty string is one of
the selected sites. -/
theorem resolveTrendSite_mem {sites : List String} {ti : Option ℤ} {s : String}
    (h : resolveTrendSite sites ti = some s) (hs : s ≠ "") : s ∈ sites := by
  unfold resolveTrendSite at h
  by_cases he : sites.isEmpty
  · rw [if_pos he] at h
    exact absurd h (by simp)
  · rw [if_neg he] at h
    simp only [Option.some.injEq] at h
    split at h
    · subst h
      exact getD_mem_of_ne_default _ _ hs
    · subst h
      exact getD_mem_of_ne_default _ _ hs

/-! ### C1 -/

/-- C1 counterexample: with two selected sites and chartType "trend", the
download filter keeps the rows of both sites while the trend chart's own
filter keeps only the rows of the single resolved trend site (here the
default, the last selected site "B"), so the two row selections differ. -/
theorem download_rows_ne_trend_rows :
    downloadRows [rowA, rowB] cfgTrendAB = [rowA, rowB] ∧
    trendFiltered [rowA, rowB] cfgTrendAB = [rowB] ∧
    downloadRows [rowA, rowB] cfgTrendAB ≠ trendFiltered [rowA, rowB] cfgTrendAB := by
  refine ⟨by decide, by decide, by decide⟩

/-- C1 (amended): the download filter selects exactly the rows the Comparison
chart aggregates, and for a Trend chart it selects a superset of the rows that
produced the displayed aggregate (every row the trend filter keeps is also
exported, because the resolved trend site is one of the selected sites). -/
theorem download_rows_match_comparison_and_contain_trend (rows : List Row) (cfg : Cfg) :
    downloadRows rows cfg = comparisonFiltered rows cfg ∧
    ∀ r ∈ trendFiltered rows cfg, r ∈ downloadRows rows cfg := by
  constructor
  · rfl
  · intro r hr
    rw [trendFiltered, List.mem_filter] at hr
    obtain ⟨hmem, hmatch⟩ := hr
    rw [downloadRows, List.mem_filter]
    refine ⟨hmem, ?_⟩
    unfold trendRowMatch at hmatch
    unfold downloadRowMatch
    simp only [Bool.and_eq_true] at hmatch
    obtain ⟨⟨hp, hsite⟩, hy⟩ := hmatch
    simp only [Bool.and_eq_true]
    refine ⟨⟨hp, ?_⟩, hy⟩
    have key : ∃ s, resolveTrendSite cfg.selectedSites cfg.trendIndex = some s ∧
        s ≠ "" ∧ jsTrim r.Site = s := by
      revert hsite
      cases resolveTrendSite cfg.selectedSites cfg.trendIndex with
      | none =>
        intro hsite
        simp at hsite
      | some s =>
        intro hsite
        rw [Bool.and_eq_true] at hsite
        obtain ⟨h1, h2⟩ := hsite
        exact ⟨s, rfl, by simpa using h1, by simpa using h2⟩
    obtain ⟨s, hres, hs, hts⟩ := key
    have hmem' : s ∈ cfg.selectedSites := resolveTrendSite_mem hres hs
    rw [hts]
    simpa using hmem'

/-- C1 witness: a concrete row kept by the trend filter is also exported. -/
theorem download_rows_contain_trend_witness :
    rowB ∈ downloadRows [rowB] cfgTrendAB :=
  (download_rows_match_comparison_and_contain_trend [rowB] cfgTrendAB).2 rowB (by decide)

/-! ### C2 -/

/-- C2 counterexample: for the data extent [0, 0.1] (span 0.1, positive but
small), the code's padding is span * 0.16 = 0.016, not the claimed
max(span * 0.16, |dataMax| * 0.02, 0.1) = 0.1; in particular it is below 0.1. -/
theorem padFor_ne_claimed_formula :
    padFor 0 (1/10) = 2/125 ∧ specPadC2 0 (1/10) = 1/10 ∧
    padFor 0 (1/10) ≠ specPadC2 0 (1/10) := by
  refine ⟨by norm_num [padFor], by norm_num [specPadC2, max_def, abs], ?_⟩
  norm_num [padFor, specPadC2, max_def, abs]

/-- C2 (amended): the Axis-Range Planner computes span = dataMax - dataMin and
uses padding span * 0.16, falling back to max(|dataMax| * 0.02, 0.1) exactly
when that product is zero; the padding is positive whenever dataMin ≤ dataMax,
but for a positive span it is span * 0.16, which can be smaller than 0.1. -/
theorem padFor_characterization (rmin rmax : ℚ) :
    padFor rmin rmax =
      (if rmax - rmin = 0 then max (|rmax| * (2/100)) (1/10) else (rmax - rmin) * (16/100)) ∧
    (rmin ≤ rmax → 0 < padFor rmin rmax) := by
  have hsplit : (rmax - rmin) * (16/100) = 0 ↔ rmax - rmin = 0 := by
    constructor
    · intro h
      rcases mul_eq_zero.mp h with h' | h'
      · exact h'
      · norm_num at h'
    · intro h
      rw [h, zero_mul]
  constructor
  · unfold padFor
    by_cases h : rmax - rmin = 0
    · rw [if_pos (hsplit.mpr h), if_pos h]
    · rw [if_neg (fun hz => h (hsplit.mp hz)), if_neg h]
  · intro hle
    unfold padFor
    by_cases h : (rmax - rmin) * (16/100) = 0
    · rw [if_pos h]
      exact lt_max_of_lt_right (by norm_num)
    · rw [if_neg h]
      have hspan : 0 < rmax - rmin := by
        rcases lt_or_eq_of_le hle with h' | h'
        · linarith
        · exfalso
          exact h (by rw [h', sub_self, zero_mul])
      positivity

/-- C2 witness: the amended characterization applied at the concrete extent [0, 1]. -/
theorem padFor_characterization_witness : 0 < padFor 0 1 :=
  (padFor_characterization 0 1).2 (by decide)

/-! ### C4 -/

/-- C4 counterexample: at v = -0.0005 the code rounds to 0 (Math.round rounds
halves toward positive infinity), while the claimed round-half-away-from-zero
rule would give -0.001. -/
theorem round3_ne_away_from_zero :
    round3 (-(1/2000)) = 0 ∧ specRound3AwayFromZero (-(1/2000)) = -(1/1000) ∧
    round3 (-(1/2000)) ≠ specRound3AwayFromZero (-(1/2000)) := by
  refine ⟨by norm_num [round3, jsRound], ?_, ?_⟩
  · norm_num [specRound3AwayFromZero, abs]
  · norm_num [round3, jsRound, specRound3AwayFromZero, abs]

/-- C4 (amended): every value entering the chart model is rounded to 3 decimal
places by round-half-toward-positive-infinity on the scaled value,
round3(v) = ⌊v * 1000 + 1/2⌋ / 1000 (so a negative value whose scaled
fractional part is exactly one half rounds toward zero, not away from it),
and the result is within 1/2000 of the input. -/
theorem round3_half_toward_posinf (v : ℚ) :
    round3 v = (⌊v * 1000 + 1/2⌋ : ℚ) / 1000 ∧ |round3 v - v| ≤ 1/2000 := by
  constructor
  · rfl
  · unfold round3 jsRound
    have h1 : (⌊v * 1000 + 1/2⌋ : ℚ) ≤ v * 1000 + 1/2 := Int.floor_le _
    have h2 : v * 1000 + 1/2 - 1 < (⌊v * 1000 + 1/2⌋ : ℚ) := Int.sub_one_lt_floor _
    rw [abs_le]
    constructor <;> linarith

/-! ### C6 -/

/-- C6 counterexample: with selectedSites = ["", "B"] and trendSiteIndex = 0,
the wrapped index is 0 but the code displays "B" (the `||` fallback to the
last site fires on the falsy empty string), not the site at index 0. -/
theorem resolveTrendSite_ne_claimed :
    resolveTrendSite ["", "B"] (some 0) = some "B" ∧
    specResolveClaim ["", "B"] (some 0) = some "" ∧
    resolveTrendSite ["", "B"] (some 0) ≠ specResolveClaim ["", "B"] (some 0) := by
  refine ⟨by decide, by decide, by decide⟩

/-- C6 (amended): for every selectedSites sequence and every integer (or
missing) trendSiteIndex, the Trend builder displays the site at index
((trendSiteIndex mod count) + count) mod count — equivalently the Euclidean
remainder — defaulting to the last selected site when no finite index is
supplied, except that when the entry at the wrapped index is the empty string
the last selected site is displayed instead; in particular trendSiteIndex = -1
with ["A", "B", "C"] resolves to "C". -/
theorem resolveTrendSite_follows_amended_spec :
    (∀ (sites : List String) (ti : Option ℤ),
        resolveTrendSite sites ti = specResolveAmended sites ti) ∧
    resolveTrendSite ["A", "B", "C"] (some (-1)) = some "C" := by
  constructor
  · intro sites ti
    unfold resolveTrendSite specResolveAmended
    by_cases he : sites.isEmpty
    · rw [if_pos he, if_pos he]
    · rw [if_neg he, if_neg he]
      have hne : sites ≠ [] := by
        simpa [List.isEmpty_iff] using he
      have hc : (0:ℤ) < (sites.length : ℤ) := by
        exact_mod_cast List.length_pos.mpr hne
      simp only [wrap_tmod_eq_emod _ _ hc]
  · decide

/-! ### C9 -/

/-- C9: both record filters are idempotent — filtering an already-filtered
result with the same configuration returns it unchanged. -/
theorem record_filter_idempotent (rows : List Row) (cfg : Cfg) :
    comparisonFiltered (comparisonFiltered rows cfg) cfg = comparisonFiltered rows cfg ∧
    trendFiltered (trendFiltered rows cfg) cfg = trendFiltered rows cfg := by
  constructor
  · simp [comparisonFiltered, List.filter_filter]
  · simp [trendFiltered, List.filter_filter]

end NWMW

namespace NWMW

/-! ### Quantile lemmas (C3, C8) -/

/-- The interpolation core of `quantile`, parameterized directly by the
position `pos = (arr.length - 1) * q`. -/
def interpAt (arr : List ℚ) (pos : ℚ) : ℚ :=
  let base : ℕ := (⌊pos⌋).toNat
  let rest : ℚ := pos - (base : ℚ)
  if base + 1 < arr.length then
    arr.getD base 0 + rest * (arr.getD (base + 1) 0 - arr.getD base 0)
  else
    arr.getD base 0

/-- `quantileVal` is `interpAt` at the computed position. -/
theorem quantileVal_eq_interpAt (arr : List ℚ) (q : ℚ) :
    quantileVal arr q = interpAt arr (((arr.length : ℚ) - 1) * q) := rfl

/-- In a sorted list, `getD` with in-range indices is monotone. -/
theorem getD_mono_of_sorted {l : List ℚ} (hs : l.Sorted (· ≤ ·)) {i j : ℕ}
    (hij : i ≤ j) (hj : j < l.length) : l.getD i 0 ≤ l.getD j 0 := by
  have hi : i < l.length := lt_of_le_of_lt hij hj
  rw [List.getD_eq_getElem _ _ hi, List.getD_eq_getElem _ _ hj]
  have h := hs.rel_get_of_le (a := ⟨i, hi⟩) (b := ⟨j, hj⟩) hij
  simpa using h

/-- On a sorted list, the interpolated value is monotone in the position, for
positions inside `[0, length - 1]`. -/
theorem interpAt_mono {l : List ℚ} (hs : l.Sorted (· ≤ ·)) {x y : ℚ}
    (hx : 0 ≤ x) (hxy : x ≤ y) (hy : y ≤ (l.length : ℚ) - 1) :
    interpAt l x ≤ interpAt l y := by
  have hy0 : 0 ≤ y := le_trans hx hxy
  have hn1 : (0:ℚ) ≤ (l.length : ℚ) - 1 := le_trans hy0 hy
  have hlen : 1 ≤ l.length := by
    by_contra hcon
    push_neg at hcon
    have h0 : l.length = 0 := by omega
    rw [h0] at hn1
    norm_num at hn1
  have hfx0 : 0 ≤ ⌊x⌋ := Int.floor_nonneg.mpr hx
  have hfy0 : 0 ≤ ⌊y⌋ := Int.floor_nonneg.mpr hy0
  have hbxZ : ((⌊x⌋.toNat : ℤ)) = ⌊x⌋ := Int.toNat_of_nonneg hfx0
  have hbyZ : ((⌊y⌋.toNat : ℤ)) = ⌊y⌋ := Int.toNat_of_nonneg hfy0
  have hbxQ : ((⌊x⌋.toNat : ℚ)) = (⌊x⌋ : ℚ) := by exact_mod_cast hbxZ
  have hbyQ : ((⌊y⌋.toNat : ℚ)) = (⌊y⌋ : ℚ) := by exact_mod_cast hbyZ
  have hfy_le : ⌊y⌋ ≤ (l.length : ℤ) - 1 := by
    have h2 : ⌊y⌋ ≤ ⌊((l.length : ℚ) - 1)⌋ := Int.floor_le_floor hy
    have h3 : ⌊((l.length : ℚ) - 1)⌋ = (l.length : ℤ) - 1 := by
      rw [show ((l.length : ℚ) - 1) = (((l.length : ℤ) - 1 : ℤ) : ℚ) by push_cast; ring]
      exact Int.floor_intCast _
    omega
  have hby_lt : ⌊y⌋.toNat < l.length := by omega
  have hbx_le : ⌊x⌋.toNat ≤ ⌊y⌋.toNat := by
    have h4 := Int.floor_le_floor hxy
    omega
  have hxlb : ((⌊x⌋.toNat : ℚ)) ≤ x := by
    rw [hbxQ]
    exact Int.floor_le x
  have hxub : x < ((⌊x⌋.toNat : ℚ)) + 1 := by
    rw [hbxQ]
    exact Int.lt_floor_add_one x
  have hylb : ((⌊y⌋.toNat : ℚ)) ≤ y := by
    rw [hbyQ]
    exact Int.floor_le y
  simp only [interpAt]
  rcases eq_or_lt_of_le hbx_le with heq | hlt
  · rw [← heq]
    by_cases hc : ⌊x⌋.toNat + 1 < l.length
    · rw [if_pos hc, if_pos hc]
      have hdel : l.getD (⌊x⌋.toNat) 0 ≤ l.getD (⌊x⌋.toNat + 1) 0 :=
        getD_mono_of_sorted hs (Nat.le_succ _) hc
      have hxy' : x - (⌊x⌋.toNat : ℚ) ≤ y - (⌊x⌋.toNat : ℚ) := by linarith
      have hmul := mul_le_mul_of_nonneg_right hxy' (sub_nonneg.mpr hdel)
      linarith
    · rw [if_neg hc, if_neg hc]
  · have h12 : ⌊x⌋.toNat + 1 ≤ ⌊y⌋.toNat := hlt
    have hc1 : ⌊x⌋.toNat + 1 < l.length := lt_of_le_of_lt h12 hby_lt
    rw [if_pos hc1]
    have hAB : l.getD (⌊x⌋.toNat) 0 ≤ l.getD (⌊x⌋.toNat + 1) 0 :=
      getD_mono_of_sorted hs (Nat.le_succ _) hc1
    have hrest1 : x - (⌊x⌋.toNat : ℚ) ≤ 1 := by linarith
    have hlhs : l.getD (⌊x⌋.toNat) 0 +
        (x - (⌊x⌋.toNat : ℚ)) * (l.getD (⌊x⌋.toNat + 1) 0 - l.getD (⌊x⌋.toNat) 0) ≤
        l.getD (⌊x⌋.toNat + 1) 0 := by
      have hm := mul_le_of_le_one_left (sub_nonneg.mpr hAB) hrest1
      linarith
    have hmid : l.getD (⌊x⌋.toNat + 1) 0 ≤ l.getD (⌊y⌋.toNat) 0 :=
      getD_mono_of_sorted hs h12 hby_lt
    by_cases hc2 : ⌊y⌋.toNat + 1 < l.length
    · rw [if_pos hc2]
      have hCD : l.getD (⌊y⌋.toNat) 0 ≤ l.getD (⌊y⌋.toNat + 1) 0 :=
        getD_mono_of_sorted hs (Nat.le_succ _) hc2
      have hr2 : 0 ≤ y - (⌊y⌋.toNat : ℚ) := by linarith
      have hm2 := mul_nonneg hr2 (sub_nonneg.mpr hCD)
      linarith
    · rw [if_neg hc2]
      linarith

/-- At position 0 the interpolation returns the first element. -/
theorem interpAt_zero (l : List ℚ) : interpAt l 0 = l.getD 0 0 := by
  simp only [interpAt, Int.floor_zero, Int.toNat_zero, Nat.cast_zero, sub_zero, zero_mul,
    add_zero, ite_self]

/-- At position `length - 1` the interpolation returns the last element. -/
theorem interpAt_last (l : List ℚ) (hne : l ≠ []) :
    interpAt l ((l.length : ℚ) - 1) = l.getD (l.length - 1) 0 := by
  have hlen : 1 ≤ l.length := List.length_pos.mpr hne
  have h3 : ⌊((l.length : ℚ) - 1)⌋ = (l.length : ℤ) - 1 := by
    rw [show ((l.length : ℚ) - 1) = (((l.length : ℤ) - 1 : ℤ) : ℚ) by push_cast; ring]
    exact Int.floor_intCast _
  have h4 : (⌊((l.length : ℚ) - 1)⌋).toNat = l.length - 1 := by omega
  simp only [interpAt, h4]
  rw [if_neg (by omega)]

/-- The code's quantile computation agrees with the spec's description of the
algorithm for every quantile level in [0, 1]. -/
theorem quantileVal_eq_spec (arr : List ℚ) (q : ℚ) (hne : arr ≠ [])
    (h0 : 0 ≤ q) (h1 : q ≤ 1) : quantileVal arr q = specQuantile arr q := by
  have hlen : 1 ≤ arr.length := List.length_pos.mpr hne
  simp only [quantileVal, specQuantile]
  set P : ℚ := ((arr.length : ℚ) - 1) * q with hP
  have hn1 : (0:ℚ) ≤ (arr.length : ℚ) - 1 := by
    have h : (1:ℚ) ≤ (arr.length : ℚ) := by exact_mod_cast hlen
    linarith
  have hpos0 : 0 ≤ P := mul_nonneg hn1 h0
  have hposle : P ≤ (arr.length : ℚ) - 1 := by
    have h := mul_le_of_le_one_right hn1 h1
    simpa [hP] using h
  have hfl0 : 0 ≤ ⌊P⌋ := Int.floor_nonneg.mpr hpos0
  have hfl_le : ⌊P⌋ ≤ (arr.length : ℤ) - 1 := by
    have h2 : ⌊P⌋ ≤ ⌊((arr.length : ℚ) - 1)⌋ := Int.floor_le_floor hposle
    have h3 : ⌊((arr.length : ℚ) - 1)⌋ = (arr.length : ℤ) - 1 := by
      rw [show ((arr.length : ℚ) - 1) = (((arr.length : ℤ) - 1 : ℤ) : ℚ) by push_cast; ring]
      exact Int.floor_intCast _
    omega
  have hbZ : ((⌊P⌋.toNat : ℤ)) = ⌊P⌋ := Int.toNat_of_nonneg hfl0
  have hbQ : ((⌊P⌋.toNat : ℚ)) = (⌊P⌋ : ℚ) := by exact_mod_cast hbZ
  by_cases hint : P = (⌊P⌋.toNat : ℚ)
  · have hceil : ⌈P⌉ = ⌊P⌋ := by
      conv_lhs => rw [hint, hbQ]
      rw [Int.ceil_intCast]
    have hceilNat : ⌈P⌉.toNat = ⌊P⌋.toNat := by rw [hceil]
    rw [hceilNat, if_pos rfl]
    by_cases hc : ⌊P⌋.toNat + 1 < arr.length
    · rw [if_pos hc]
      have hz : P - (⌊P⌋.toNat : ℚ) = 0 := sub_eq_zero.mpr hint
      rw [hz, zero_mul, add_zero]
    · rw [if_neg hc]
  · have hflt : (⌊P⌋ : ℚ) < P := by
      rcases lt_or_eq_of_le (Int.floor_le P) with h | h
      · exact h
      · exact absurd (by rw [← hbQ] at h; exact h.symm) hint
    have hceil : ⌈P⌉ = ⌊P⌋ + 1 := by
      rw [Int.ceil_eq_iff]
      constructor
      · push_cast
        linarith
      · push_cast
        linarith [Int.lt_floor_add_one P]
    have hPlt : P < (arr.length : ℚ) - 1 := by
      rcases lt_or_eq_of_le hposle with h | h
      · exact h
      · exfalso
        apply hint
        have hfloor : ⌊P⌋ = (arr.length : ℤ) - 1 := by
          rw [h, show ((arr.length : ℚ) - 1) = (((arr.length : ℤ) - 1 : ℤ) : ℚ) by
            push_cast; ring]
          exact Int.floor_intCast _
        rw [hbQ, hfloor, h]
        push_cast
        ring
    have hc : ⌊P⌋.toNat + 1 < arr.length := by
      have h5 : (⌊P⌋ : ℚ) < (arr.length : ℚ) - 1 := lt_of_le_of_lt (Int.floor_le P) hPlt
      have h6 : ⌊P⌋ < (arr.length : ℤ) - 1 := by exact_mod_cast (by push_cast at h5 ⊢; linarith : ((⌊P⌋ : ℤ) : ℚ) < (((arr.length : ℤ) - 1 : ℤ) : ℚ))
      omega
    have hne2 : ⌈P⌉.toNat ≠ ⌊P⌋.toNat := by
      rw [hceil]
      omega
    rw [if_pos hc, if_neg hne2, hceil]
    have h7 : (⌊P⌋ + 1).toNat = ⌊P⌋.toNat + 1 := by omega
    rw [h7]

/-! ### C3 -/

/-- C3: for every non-empty sorted-ascending numeric array, q1, median and q3
are computed by the linear-interpolation quantile at position (n-1)*q (exact
index positions return the element unmodified, fractional ones interpolate
between the bracketing sorted values), and the concrete examples of the claim
hold: [1,2,3,4,5] gives q1 = 2, median = 3, q3 = 4, and [1,2,3,4] gives
median = 2.5. -/
theorem quantile_follows_spec (arr : List ℚ) (hne : arr ≠ [])
    (_hsorted : arr.Sorted (· ≤ ·)) :
    quantile arr (1/4) = some (specQuantile arr (1/4)) ∧
    quantile arr (1/2) = some (specQuantile arr (1/2)) ∧
    quantile arr (3/4) = some (specQuantile arr (3/4)) ∧
    quantile [(1:ℚ), 2, 3, 4, 5] (1/4) = some 2 ∧
    quantile [(1:ℚ), 2, 3, 4, 5] (1/2) = some 3 ∧
    quantile [(1:ℚ), 2, 3, 4, 5] (3/4) = some 4 ∧
    quantile [(1:ℚ), 2, 3, 4] (1/2) = some (5/2) := by
  have hq : ∀ q : ℚ, 0 ≤ q → q ≤ 1 → quantile arr q = some (specQuantile arr q) := by
    intro q h0 h1
    rw [quantile, if_neg (by simpa [List.isEmpty_iff] using hne),
      quantileVal_eq_spec arr q hne h0 h1]
  refine ⟨hq _ (by norm_num) (by norm_num), hq _ (by norm_num) (by norm_num),
    hq _ (by norm_num) (by norm_num), ?_, ?_, ?_, ?_⟩ <;>
    norm_num [quantile, quantileVal, show Int.toNat 1 = 1 from rfl,
      show Int.toNat 2 = 2 from rfl, show Int.toNat 3 = 3 from rfl]

/-- C3 witness: the theorem applied to the concrete sorted array [1, 2]. -/
theorem quantile_follows_spec_witness :
    quantile [(1:ℚ), 2] (1/2) = some (specQuantile [(1:ℚ), 2] (1/2)) :=
  (quantile_follows_spec [(1:ℚ), 2] (by decide) (by decide)).2.1

/-! ### C8 -/

/-- C8: for every non-empty numeric array, the five-number summary computed by
computeBoxStats satisfies min ≤ q1 ≤ median ≤ q3 ≤ max. -/
theorem computeBoxStats_ordered (values : List ℚ) (hne : values ≠ []) :
    ∃ s, computeBoxStats values = some s ∧
      s.min ≤ s.q1 ∧ s.q1 ≤ s.median ∧ s.median ≤ s.q3 ∧ s.q3 ≤ s.max := by
  have hemp : ¬ values.isEmpty = true := by simpa [List.isEmpty_iff] using hne
  have hs : (sortAsc values).Sorted (· ≤ ·) := List.sorted_insertionSort _ values
  have hlen_eq : (sortAsc values).length = values.length :=
    (List.perm_insertionSort _ values).length_eq
  have hlen : 1 ≤ (sortAsc values).length := by
    rw [hlen_eq]
    exact List.length_pos.mpr hne
  have hne2 : sortAsc values ≠ [] := by
    intro h
    rw [h] at hlen
    simp at hlen
  have hn1 : (0:ℚ) ≤ ((sortAsc values).length : ℚ) - 1 := by
    have h : (1:ℚ) ≤ ((sortAsc values).length : ℚ) := by exact_mod_cast hlen
    linarith
  have mono : ∀ a b : ℚ, 0 ≤ a → a ≤ b → b ≤ 1 →
      quantileVal (sortAsc values) a ≤ quantileVal (sortAsc values) b := by
    intro a b h0 hab h1
    rw [quantileVal_eq_interpAt, quantileVal_eq_interpAt]
    exact interpAt_mono hs (mul_nonneg hn1 h0)
      (mul_le_mul_of_nonneg_left hab hn1) (mul_le_of_le_one_right hn1 h1)
  have h0eq : quantileVal (sortAsc values) 0 = (sortAsc values).getD 0 0 := by
    rw [quantileVal_eq_interpAt, mul_zero, interpAt_zero]
  have h1eq : quantileVal (sortAsc values) 1 =
      (sortAsc values).getD ((sortAsc values).length - 1) 0 := by
    rw [quantileVal_eq_interpAt, mul_one, interpAt_last _ hne2]
  refine ⟨⟨(sortAsc values).getD 0 0, quantileVal (sortAsc values) (1/4),
      quantileVal (sortAsc values) (1/2), quantileVal (sortAsc values) (3/4),
      (sortAsc values).getD ((sortAsc values).length - 1) 0⟩, ?_, ?_, ?_, ?_, ?_⟩
  · rw [computeBoxStats, if_neg hemp]
  · rw [← h0eq]
    exact mono 0 (1/4) (by norm_num) (by norm_num) (by norm_num)
  · exact mono (1/4) (1/2) (by norm_num) (by norm_num) (by norm_num)
  · exact mono (1/2) (3/4) (by norm_num) (by norm_num) (by norm_num)
  · rw [← h1eq]
    exact mono (3/4) 1 (by norm_num) (by norm_num) (by norm_num)

/-- C8 witness: the ordering theorem applied to the concrete array [3, 1, 2]. -/
theorem computeBoxStats_ordered_witness :
    ∃ s, computeBoxStats [(3:ℚ), 1, 2] = some s ∧
      s.min ≤ s.q1 ∧ s.q1 ≤ s.median ∧ s.median ≤ s.q3 ∧ s.q3 ≤ s.max :=
  computeBoxStats_ordered [(3:ℚ), 1, 2] (by decide)


/-! ### C5 -/

/-- Rounding to 3 decimals is idempotent. -/
theorem round3_idem (v : ℚ) : round3 (round3 v) = round3 v := by
  unfold round3 jsRound
  have h : ((⌊v * 1000 + 1/2⌋ : ℚ) / 1000) * 1000 = (⌊v * 1000 + 1/2⌋ : ℚ) := by
    field_simp
  rw [h, Int.floor_int_add]
  norm_num

/-- Every element of a collected averages array is already rounded, hence a
fixed point of `round3`. -/
theorem avgsFor_round3_fixed {rows : List Row} {y : ℤ} {a : ℚ}
    (h : a ∈ avgsFor rows y) : round3 a = a := by
  rw [avgsFor, List.mem_filterMap] at h
  obtain ⟨r, _, hr⟩ := h
  split at hr
  · rw [Option.map_eq_some'] at hr
    obtain ⟨v, _, hv⟩ := hr
    rw [← hv, round3_idem]
  · simp at hr

/-- A singleton array has its only element as every quantile. -/
theorem quantileVal_singleton (a : ℚ) (q : ℚ) : quantileVal [a] q = a := by
  norm_num [quantileVal]

/-- C5: for every year group with at least one finite average, the Trend
builder produces a box whose whisker min (resp. max) falls back to the rounded
mean of the averages when no finite declared minimums (resp. maximums) exist;
and for a single-record year with no declared min/max, all box statistics
(including the whiskers and the mean) equal that record's (already rounded)
average. -/
theorem trend_whisker_fallback (rows : List Row) (y : ℤ)
    (hne : avgsFor rows y ≠ []) :
    ∃ b, boxForYear rows y = some b ∧
      (minsFor rows y = [] → b.min = round3 (mean (avgsFor rows y))) ∧
      (maxsFor rows y = [] → b.max = round3 (mean (avgsFor rows y))) ∧
      (∀ a, avgsFor rows y = [a] → minsFor rows y = [] → maxsFor rows y = [] →
        b.min = a ∧ b.q1 = a ∧ b.median = a ∧ b.q3 = a ∧ b.max = a ∧ b.mean = a) := by
  have hemp : ¬ (avgsFor rows y).isEmpty = true := by
    simpa [List.isEmpty_iff] using hne
  have hbox : boxForYear rows y = some
      { min := round3 (match (minsFor rows y).min? with
          | some m => m
          | none => mean (avgsFor rows y))
        q1 := round3 (quantileVal (sortAsc (avgsFor rows y)) (1/4))
        median := round3 (quantileVal (sortAsc (avgsFor rows y)) (1/2))
        q3 := round3 (quantileVal (sortAsc (avgsFor rows y)) (3/4))
        max := round3 (match (maxsFor rows y).max? with
          | some m => m
          | none => mean (avgsFor rows y))
        mean := round3 (mean (avgsFor rows y)) } := by
    simp only [boxForYear]
    rw [if_neg hemp]
  refine ⟨_, hbox, ?_, ?_, ?_⟩
  · intro hmin
    rw [hmin]
    rfl
  · intro hmax
    rw [hmax]
    rfl
  · intro a ha hmin hmax
    have hfix : round3 a = a := avgsFor_round3_fixed (by rw [ha]; exact List.mem_singleton_self a)
    have hmean : mean (avgsFor rows y) = a := by
      rw [ha]
      simp [mean]
    have hsort : sortAsc (avgsFor rows y) = [a] := by
      rw [ha]
      rfl
    rw [hmin, hmax, hmean, hsort]
    simp only [quantileVal_singleton, List.min?_nil, List.max?_nil]
    exact ⟨hfix, hfix, hfix, hfix, hfix, hfix⟩

/-- C5 witness: a single record with average 5 and no declared min/max yields
a box with all statistics equal to 5 via the fallback theorem. -/
theorem trend_whisker_fallback_witness :
    ∃ b, boxForYear [rowA] 2020 = some b ∧
      (minsFor [rowA] 2020 = [] → b.min = round3 (mean (avgsFor [rowA] 2020))) ∧
      (maxsFor [rowA] 2020 = [] → b.max = round3 (mean (avgsFor [rowA] 2020))) ∧
      (∀ a, avgsFor [rowA] 2020 = [a] → minsFor [rowA] 2020 = [] → maxsFor [rowA] 2020 = [] →
        b.min = a ∧ b.q1 = a ∧ b.median = a ∧ b.q3 = a ∧ b.max = a ∧ b.mean = a) :=
  trend_whisker_fallback [rowA] 2020 (by decide)

/-! ### C7 -/

/-- C7: a record whose average does not parse to a finite number contributes
nothing to the averages of any year (aggregation is total, no exception); a
year whose collected averages array is empty produces no box entry; and a
matching group consisting only of such a record (with no declared min/max
either) produces no entry at all — neither a label nor a box. -/
theorem malformed_average_excluded (r : Row) (rows : List Row) (cfg : Cfg) (y : ℤ)
    (hAvg : r.Avg = none) :
    avgsFor (r :: rows) y = avgsFor rows y ∧
    (avgsFor rows y = [] → boxForYear rows y = none) ∧
    (r.Min = none → r.Max = none →
      (buildTrendChart [r] cfg).labels = [] ∧ (buildTrendChart [r] cfg).boxData = []) := by
  refine ⟨?_, ?_, ?_⟩
  · simp [avgsFor, List.filterMap_cons, hAvg]
  · intro h
    simp [boxForYear, h]
  · intro hmin hmax
    have hdata : hasData r = false := by
      simp [hasData, hAvg, hmin, hmax]
    have hyears : trendYears
        ([r].filter (trendRowMatch cfg (resolveTrendSite cfg.selectedSites cfg.trendIndex))) = [] := by
      cases hp : trendRowMatch cfg (resolveTrendSite cfg.selectedSites cfg.trendIndex) r
      · simp [hp, trendYears]
      · simp [hp, trendYears, hdata]
    constructor
    · simp [buildTrendChart, hyears]
    · simp [buildTrendChart, hyears]

/-- C7 witness: a concrete record with a non-finite average and no other
numeric fields produces an empty trend model. -/
theorem malformed_average_excluded_witness :
    avgsFor (rowMinOnly :: []) 2020 = avgsFor [] 2020 ∧
    (avgsFor [] 2020 = [] → boxForYear [] 2020 = none) ∧
    (rowMinOnly.Min = none → rowMinOnly.Max = none →
      (buildTrendChart [rowMinOnly] cfgTrendA).labels = [] ∧
      (buildTrendChart [rowMinOnly] cfgTrendA).boxData = []) :=
  malformed_average_excluded rowMinOnly [] cfgTrendA 2020 (by decide)

/-! ### C10 -/

/-- C10: the failing input.  A record whose declared min/max parse to finite
numbers but whose average does not makes buildTrendChart emit the year into
`labels` while emitting no entry into `boxData`/`counts` (the `if
(!avgs.length) return;` guard), so the model violates the component's own
`lengthsMatch` propTypes validator. -/
theorem trend_labels_misaligned :
    (buildTrendChart [rowMinOnly] cfgTrendA).labels.length = 1 ∧
    (buildTrendChart [rowMinOnly] cfgTrendA).boxData.length = 0 ∧
    (buildTrendChart [rowMinOnly] cfgTrendA).counts.length = 0 ∧
    lengthsOk (buildTrendChart [rowMinOnly] cfgTrendA).labels
      (buildTrendChart [rowMinOnly] cfgTrendA).boxData
      (buildTrendChart [rowMinOnly] cfgTrendA).counts = false := by
  refine ⟨by decide, by decide, by decide, by decide⟩

end NWMW
